import Mathlib

/-!
Verification of the placeholder-resolution and media-concatenation pipeline of
the railway-announcement backend (`api/routes/final_announcement.py`,
`api/utils/isl_utils.py`, `api/routes/publish_isl.py`).

Text is modelled as `List Char` throughout (the Python code works on `str`);
all helper functions are executable structural recursions so that concrete
runs of the pipeline can be evaluated inside proofs.  Database tables are
modelled as lists of records, SQLAlchemy `filter(...).first()` as
`List.find?`, and the filesystem as the list of paths of existing files.
-/

/-- Character strings, modelled as lists of characters. -/
abbrev Str := List Char

/-- Python `needle in haystack` / SQL `LIKE %needle%`: substring containment. -/
def infixOf (needle : Str) : Str → Bool
  | [] => needle.isEmpty
  | c :: rest => needle.isPrefixOf (c :: rest) || infixOf needle rest

/-- Python `str.strip()` for an arbitrary set of characters to remove. -/
def pyStripChars (p : Char → Bool) (cs : Str) : Str :=
  ((cs.dropWhile p).reverse.dropWhile p).reverse

/-- Python `str.strip()` with the default whitespace characters. -/
def pyStrip (cs : Str) : Str :=
  pyStripChars Char.isWhitespace cs

/-- Python `str.strip('{}')`: braces removed from both ends. -/
def pyStripBraces (cs : Str) : Str :=
  pyStripChars (fun c => c = '\x7b' || c = '\x7d') cs

/-- Python `str.lower()` (ASCII case folding, as used by the source). -/
def pyLower (cs : Str) : Str := cs.map Char.toLower

/-- Python `str.isdigit()`: nonempty and every character a digit. -/
def pyIsDigit (cs : Str) : Bool := !cs.isEmpty && cs.all Char.isDigit

/-- Helper for `pySplit`: accumulates the current word (reversed). -/
def pySplitAux : Str → Str → List Str
  | [], acc => if acc.isEmpty then [] else [acc.reverse]
  | c :: rest, acc =>
    if c.isWhitespace then
      if acc.isEmpty then pySplitAux rest [] else acc.reverse :: pySplitAux rest []
    else pySplitAux rest (c :: acc)

/-- Python `str.split()`: split on whitespace runs, no empty words. -/
def pySplit (cs : Str) : List Str := pySplitAux cs []

/-- Fuel-driven body of `replaceAll` (structural so that it evaluates in the
kernel; the input's length is always enough fuel). -/
def replaceAllAux (old new : Str) : Nat → Str → Str
  | 0, cs => cs
  | n + 1, cs =>
    match cs with
    | [] => []
    | c :: rest =>
      if old.isPrefixOf (c :: rest) && !old.isEmpty then
        new ++ replaceAllAux old new n ((c :: rest).drop old.length)
      else c :: replaceAllAux old new n rest

/-- Python `str.replace(old, new)` with a nonempty pattern: replace every
occurrence, scanning left to right. -/
def replaceAll (old new cs : Str) : Str := replaceAllAux old new cs.length cs

/-- Python `os.path.join(a, b)`: `b` wins when absolute, else joined with a
separator unless `a` is empty or already ends in one. -/
def pathJoin (a b : Str) : Str :=
  if b.headD ' ' = '/' then b
  else if a.isEmpty then b
  else if a.getLast? = some '/' then a ++ b
  else a ++ '/' :: b

/-- The digit-to-word table of `final_announcement.py` (and
`convert_digits_to_words`): `digit_to_word.get(digit, digit)`. -/
def digit_to_word (c : Char) : Str :=
  if c = '0' then "zero".data
  else if c = '1' then "one".data
  else if c = '2' then "two".data
  else if c = '3' then "three".data
  else if c = '4' then "four".data
  else if c = '5' then "five".data
  else if c = '6' then "six".data
  else if c = '7' then "seven".data
  else if c = '8' then "eight".data
  else if c = '9' then "nine".data
  else [c]

/-- `convert_digits_to_words` of `isl_utils.py`: `re.sub(r'\d', ...)`,
each digit character replaced by its English word. -/
def convert_digits_to_words (cs : Str) : Str :=
  (cs.map fun c => if c.isDigit then digit_to_word c else [c]).flatten

/-- The four supported languages of the pipeline. -/
inductive Lang | english | marathi | hindi | gujarati
deriving DecidableEq, Repr

/-- `language_column_map.get(language.lower())`: which audio column a language
string selects; `none` for an unknown language. -/
def langOfString (language : Str) : Option Lang :=
  if pyLower language = "english".data then some Lang.english
  else if pyLower language = "marathi".data then some Lang.marathi
  else if pyLower language = "hindi".data then some Lang.hindi
  else if pyLower language = "gujarati".data then some Lang.gujarati
  else none

/-- A row of the `AudioFile` table (the general catalog). -/
structure AudioFileRec where
  english_text : Str
  marathi_translation : Option Str
  hindi_translation : Option Str
  gujarati_translation : Option Str
  english_audio_path : Option Str
  marathi_audio_path : Option Str
  hindi_audio_path : Option Str
  gujarati_audio_path : Option Str
  is_active : Bool
deriving DecidableEq, Repr

/-- The `{language}_audio_path` column of an `AudioFile` row. -/
def audioPathCol : Lang → AudioFileRec → Option Str
  | Lang.english, af => af.english_audio_path
  | Lang.marathi, af => af.marathi_audio_path
  | Lang.hindi, af => af.hindi_audio_path
  | Lang.gujarati, af => af.gujarati_audio_path

/-- The text column an `AudioFile` exact-match query compares against
(`english_text` / `{language}_translation`). -/
def textCol : Lang → AudioFileRec → Option Str
  | Lang.english, af => some af.english_text
  | Lang.marathi, af => af.marathi_translation
  | Lang.hindi, af => af.hindi_translation
  | Lang.gujarati, af => af.gujarati_translation

/-- `db.query(AudioFile).filter(AudioFile.english_text == txt,
audio_column not null, is_active).first()`, projected to the audio path. -/
def findAudioExactEnglish (db : List AudioFileRec) (lang : Lang) (txt : Str) :
    Option Str :=
  (db.find? fun af =>
    af.english_text = txt && (audioPathCol lang af).isSome && af.is_active).bind
    (audioPathCol lang)

/-- Same query with `AudioFile.english_text.contains(txt)` (substring). -/
def findAudioContainsEnglish (db : List AudioFileRec) (lang : Lang) (txt : Str) :
    Option Str :=
  (db.find? fun af =>
    infixOf txt af.english_text && (audioPathCol lang af).isSome && af.is_active).bind
    (audioPathCol lang)

/-- `get_existing_audio_for_placeholder` of `final_announcement.py`:
resolves a placeholder's bound value to a list of audio paths.  Train and
platform numbers made of digits are decomposed digit by digit (each digit's
English word looked up independently, misses dropped); other placeholders try
an exact match, then a contains match for station fields, or word-by-word
lookup for train names. -/
def get_existing_audio_for_placeholder (placeholder value language : Str)
    (db : List AudioFileRec) : List Str :=
  let placeholder_clean := pyStripBraces placeholder
  match langOfString language with
  | none => []
  | some lang =>
    if infixOf "train_number".data (pyLower placeholder_clean) && pyIsDigit value then
      value.filterMap fun digit => findAudioExactEnglish db lang (digit_to_word digit)
    else if infixOf "platform_number".data (pyLower placeholder_clean) && pyIsDigit value then
      value.filterMap fun digit => findAudioExactEnglish db lang (digit_to_word digit)
    else
      match findAudioExactEnglish db lang value with
      | some p => [p]
      | none =>
        if infixOf "station".data (pyLower placeholder_clean) then
          match findAudioContainsEnglish db lang value with
          | some p => [p]
          | none => []
        else if infixOf "train_name".data (pyLower placeholder_clean) then
          match findAudioExactEnglish db lang value with
          | some p => [p]
          | none => (pySplit value).filterMap fun word => findAudioExactEnglish db lang word
        else []

/-- A row of the `AnnouncementAudioSegment` table (template-harvested clips). -/
structure AudioSegmentRec where
  template_id : Nat
  segment_text : Str
  language : Str
  audio_path : Option Str
  is_active : Bool
deriving DecidableEq, Repr

/-- The catalog store: both tables consulted by the resolver. -/
structure Db where
  segments : List AudioSegmentRec
  audio_files : List AudioFileRec
deriving Repr

/-- `get_existing_audio_for_text` of `final_announcement.py`: resolve a
literal text run, first by exact then contains match among the template's own
audio segments, then by exact match in the general `AudioFile` catalog. -/
def get_existing_audio_for_text (text language : Str) (template_id : Nat)
    (db : Db) : Option Str :=
  if (pyStrip text).isEmpty then none
  else
    match langOfString language with
    | none => none
    | some lang =>
      let t := pyStrip text
      match db.segments.find? (fun s =>
          s.template_id = template_id && s.segment_text = t &&
          s.language = language && s.audio_path.isSome && s.is_active) with
      | some s => s.audio_path
      | none =>
        match db.segments.find? (fun s =>
            s.template_id = template_id && infixOf t s.segment_text &&
            s.language = language && s.audio_path.isSome && s.is_active) with
        | some s => s.audio_path
        | none =>
          match db.audio_files.find? (fun af =>
              textCol lang af = some t && (audioPathCol lang af).isSome &&
              af.is_active) with
          | some af => audioPathCol lang af
          | none => none

/-- Index of the first `'}'` in a character list, when present. -/
def findCloseIdx : Str → Option Nat
  | [] => none
  | c :: rest => if c = '\x7d' then some 0 else (findCloseIdx rest).map (· + 1)

/-- Attempt of the regex `\{([^}]+)\}` anchored at the head of the list:
returns the match length and the captured group on success. -/
def matchAt : Str → Option (Nat × Str)
  | [] => none
  | c :: rest =>
    if c = '\x7b' then
      match findCloseIdx rest with
      | some j => if 1 ≤ j then some (j + 2, rest.take j) else none
      | none => none
    else none

/-- Leftmost match of `\{([^}]+)\}` in a list: the text before the match, the
captured group, and the text after the match (as produced by `re.finditer`'s
left-to-right scan). -/
def firstMatch : Str → Option (Str × Str × Str)
  | [] => none
  | c :: rest =>
    match matchAt (c :: rest) with
    | some (len, grp) => some ([], grp, (c :: rest).drop len)
    | none => (firstMatch rest).map fun pgs => (c :: pgs.1, pgs.2.1, pgs.2.2)

theorem firstMatch_none_nil : firstMatch [] = none := rfl


theorem findCloseIdx_spec : ∀ {cs : Str} {j : Nat}, findCloseIdx cs = some j →
    cs = cs.take j ++ '\x7d' :: cs.drop (j + 1) := by
  intro cs
  induction cs with
  | nil => intro j h; simp [findCloseIdx] at h
  | cons a l ih =>
    intro j h
    simp only [findCloseIdx] at h
    by_cases ha : a = '\x7d'
    · rw [if_pos ha] at h
      cases h
      simp [ha]
    · rw [if_neg ha] at h
      cases hl : findCloseIdx l with
      | none => rw [hl] at h; simp at h
      | some j' =>
        rw [hl] at h
        have h' : some (j' + 1) = some j := h
        cases h'
        have hd : (a :: l).drop (j' + 1 + 1) = l.drop (j' + 1) := rfl
        have ht : (a :: l).take (j' + 1) = a :: l.take j' := rfl
        rw [hd, ht]
        exact congrArg (a :: ·) (ih hl)

theorem matchAt_some : ∀ {cs : Str} {len : Nat} {grp : Str},
    matchAt cs = some (len, grp) →
    cs = '\x7b' :: (grp ++ '\x7d' :: cs.drop len) ∧ 2 ≤ len := by
  intro cs len grp h
  match cs with
  | [] => simp [matchAt] at h
  | c :: rest =>
    simp only [matchAt] at h
    by_cases hc : c = '\x7b'
    case neg => rw [if_neg hc] at h; simp at h
    rw [if_pos hc] at h
    cases hclose : findCloseIdx rest with
    | none => rw [hclose] at h; simp at h
    | some j =>
      rw [hclose] at h
      have h2 : (if 1 ≤ j then some (j + 2, List.take j rest) else none) =
          some (len, grp) := h
      by_cases hj : 1 ≤ j
      case neg => rw [if_neg hj] at h2; simp at h2
      rw [if_pos hj] at h2
      simp only [Option.some_inj, Prod.mk.injEq] at h2
      obtain ⟨hlen, hgrp⟩ := h2
      subst hc hlen hgrp
      refine ⟨?_, by omega⟩
      have hdrop : ('\x7b' :: rest).drop (j + 2) = rest.drop (j + 1) := rfl
      rw [hdrop]
      exact congrArg ('\x7b' :: ·) (findCloseIdx_spec hclose)

theorem firstMatch_some : ∀ {cs p grp s : Str},
    firstMatch cs = some (p, grp, s) →
    cs = p ++ '\x7b' :: (grp ++ '\x7d' :: s) ∧ s.length < cs.length := by
  intro cs
  induction cs with
  | nil => intro p grp s h; simp [firstMatch] at h
  | cons c rest ih =>
    intro p grp s h
    simp only [firstMatch] at h
    cases hm : matchAt (c :: rest) with
    | some lg =>
      obtain ⟨len, g⟩ := lg
      rw [hm] at h
      simp only [Option.some_inj, Prod.mk.injEq] at h
      obtain ⟨hp, hgrp, hs⟩ := h
      subst hp hgrp hs
      obtain ⟨hcs, hlen⟩ := matchAt_some hm
      refine ⟨by simpa using hcs, ?_⟩
      simp only [List.length_drop, List.length_cons]
      omega
    | none =>
      rw [hm] at h
      cases hf : firstMatch rest with
      | none => rw [hf] at h; simp at h
      | some pgs =>
        obtain ⟨p', g', s'⟩ := pgs
        rw [hf] at h
        obtain ⟨hcs, hlen⟩ := ih hf
        have h' : some (c :: p', g', s') = some (p, grp, s) := h
        simp only [Option.some_inj, Prod.mk.injEq] at h'
        obtain ⟨hp, hgrp, hs⟩ := h'
        subst hp hgrp hs
        constructor
        · simpa using congrArg (c :: ·) hcs
        · simp only [List.length_cons]
          omega

/-- Fuel-driven iteration of `firstMatch`, mirroring the non-overlapping
left-to-right scan of `re.finditer(r'\{([^}]+)\}', text)` interleaved with the
gap texts between matches (`.inl` = gap run, `.inr` = captured group). -/
def segmentsAux : Nat → Str → List (Str ⊕ Str)
  | 0, cs => [Sum.inl cs]
  | n + 1, cs =>
    match firstMatch cs with
    | none => [Sum.inl cs]
    | some (p, g, s) => Sum.inl p :: Sum.inr g :: segmentsAux n s

/-- The raw pieces of a template text: leading gap, first placeholder group,
gap, …, trailing gap.  `cs.length` fuel always suffices because each match
consumes at least two characters. -/
def segments (cs : Str) : List (Str ⊕ Str) := segmentsAux cs.length cs

theorem segmentsAux_fuel : ∀ {n m : Nat} {cs : Str}, cs.length ≤ n →
    cs.length ≤ m → segmentsAux n cs = segmentsAux m cs := by
  intro n
  induction n with
  | zero =>
    intro m cs hn _
    have : cs = [] := List.length_eq_zero.mp (Nat.le_zero.mp hn)
    subst this
    cases m with
    | zero => rfl
    | succ m' => simp [segmentsAux, firstMatch]
  | succ n' ih =>
    intro m cs hn hm
    cases m with
    | zero =>
      have : cs = [] := List.length_eq_zero.mp (Nat.le_zero.mp hm)
      subst this
      simp [segmentsAux, firstMatch]
    | succ m' =>
      simp only [segmentsAux]
      cases hf : firstMatch cs with
      | none => rfl
      | some pgs =>
        obtain ⟨p, g, s⟩ := pgs
        have hlt := (firstMatch_some hf).2
        have h1 : s.length ≤ n' := by omega
        have h2 : s.length ≤ m' := by omega
        show Sum.inl p :: Sum.inr g :: segmentsAux n' s =
          Sum.inl p :: Sum.inr g :: segmentsAux m' s
        rw [ih h1 h2]

theorem segments_eq (cs : Str) : segments cs =
    match firstMatch cs with
    | none => [Sum.inl cs]
    | some (p, g, s) => Sum.inl p :: Sum.inr g :: segments s := by
  cases hl : cs.length with
  | zero =>
    have : cs = [] := List.length_eq_zero.mp hl
    subst this
    simp [segments, segmentsAux, firstMatch]
  | succ n =>
    show segmentsAux cs.length cs = _
    rw [hl]
    simp only [segmentsAux]
    cases hf : firstMatch cs with
    | none => rfl
    | some pgs =>
      obtain ⟨p, g, s⟩ := pgs
      have hlt := (firstMatch_some hf).2
      have h1 : s.length ≤ n := by omega
      show Sum.inl p :: Sum.inr g :: segmentsAux n s =
        Sum.inl p :: Sum.inr g :: segments s
      rw [segmentsAux_fuel h1 (Nat.le_refl s.length)]
      rfl

/-- Concatenating the raw pieces, putting back the brace delimiters around
each captured group. -/
def flattenPieces : List (Str ⊕ Str) → Str
  | [] => []
  | Sum.inl l :: rest => l ++ flattenPieces rest
  | Sum.inr g :: rest => '\x7b' :: (g ++ '\x7d' :: flattenPieces rest)

/-- The raw pieces of the scan cover the whole input with no gaps or
overlaps: flattening them restores the text character for character. -/
theorem flattenPieces_segments : ∀ (cs : Str),
    flattenPieces (segments cs) = cs := by
  have H : ∀ (n : Nat) (cs : Str), cs.length ≤ n →
      flattenPieces (segments cs) = cs := by
    intro n
    induction n with
    | zero =>
      intro cs h
      have hnil : cs = [] := List.length_eq_zero.mp (Nat.le_zero.mp h)
      subst hnil
      rfl
    | succ n' ih =>
      intro cs h
      rw [segments_eq]
      cases hf : firstMatch cs with
      | none =>
        show flattenPieces [Sum.inl cs] = cs
        simp [flattenPieces]
      | some pgs =>
        obtain ⟨p, g, s⟩ := pgs
        obtain ⟨hcs, hlt⟩ := firstMatch_some hf
        show flattenPieces (Sum.inl p :: Sum.inr g :: segments s) = cs
        simp only [flattenPieces]
        rw [ih s (by omega)]
        exact hcs.symm
  intro cs
  exact H cs.length cs (Nat.le_refl _)

/-- The kind tag of a segment record. -/
inductive SegKind | literal | placeholder
deriving DecidableEq, Repr

/-- One entry of the segment sequence the generation loop works through. -/
structure Segment where
  kind : SegKind
  value : Str
deriving DecidableEq, Repr

/-- The segment records produced by the per-language loop of
`generate_final_announcement_audio_background`: each gap is
whitespace-stripped (`text_before.strip()` / `text_after.strip()`) and
dropped when empty; each placeholder contributes the stripped captured
group (`match.group(1).strip()`). -/
def toSegs : List (Str ⊕ Str) → List Segment
  | [] => []
  | Sum.inl lit :: rest =>
    let v := pyStrip lit
    (if v.isEmpty then [] else [Segment.mk SegKind.literal v]) ++ toSegs rest
  | Sum.inr g :: rest => Segment.mk SegKind.placeholder (pyStrip g) :: toSegs rest

/-- The Text Segmenter of the source: template text to segment records. -/
def segmentTemplate (cs : Str) : List Segment := toSegs (segments cs)

/-- The values of the placeholder-kind entries of a segment sequence,
in order. -/
def phValues (segs : List Segment) : List Str :=
  segs.filterMap fun s =>
    match s.kind with
    | SegKind.placeholder => some s.value
    | SegKind.literal => none

/-- The stripped captured groups of the raw pieces, in order. -/
def pieceGroups (ps : List (Str ⊕ Str)) : List Str :=
  ps.filterMap fun p =>
    match p with
    | Sum.inl _ => none
    | Sum.inr g => some (pyStrip g)

theorem phValues_toSegs : ∀ (ps : List (Str ⊕ Str)),
    phValues (toSegs ps) = pieceGroups ps := by
  intro ps
  induction ps with
  | nil => rfl
  | cons p rest ih =>
    cases p with
    | inl lit =>
      simp only [toSegs, pieceGroups, List.filterMap_cons]
      by_cases hv : (pyStrip lit).isEmpty
      · rw [if_pos hv]
        simpa [pieceGroups] using ih
      · rw [if_neg hv]
        simpa [phValues, pieceGroups] using ih
    | inr g =>
      simp only [toSegs, pieceGroups, List.filterMap_cons]
      simpa [phValues, pieceGroups] using ih

/-- Concatenation of all segment values, in order. -/
def concatValues (segs : List Segment) : Str := (segs.map Segment.value).flatten

/-- The on-disk location a catalog path resolves to:
`os.path.join("/var/www/audio_files", path.replace('/audio_files/', ''))`. -/
def audioFullPath (p : Str) : Str :=
  pathJoin "/var/www/audio_files".data (replaceAll "/audio_files/".data [] p)

/-- `concatenate_audio_files` of `final_announcement.py`, over a filesystem
modelled as the list of existing file paths.  Returns the list of source
files actually appended (in order) on success and `none` on failure, together
with the filesystem afterwards (the output file is created only on success).
Falsy (empty) entries are filtered out; a missing first file aborts, a
missing later file is skipped. -/
def concatenate_audio_files (audio_paths : List Str) (output_path : Str)
    (fs : List Str) : Option (List Str) × List Str :=
  match audio_paths with
  | [] => (none, fs)
  | _ :: _ =>
    match audio_paths.filter (fun p => !p.isEmpty) with
    | [] => (none, fs)
    | v0 :: vrest =>
      if fs.contains (audioFullPath v0) then
        (some (v0 :: vrest.filter fun p => fs.contains (audioFullPath p)),
         output_path :: fs)
      else (none, fs)

/-- The states of a generation job's progress record. -/
inductive Status | starting | processing | merging | completed | error
deriving DecidableEq, Repr

/-- One entry of `final_audio_files` (per-language output metadata). -/
structure LangOutput where
  audio_path : Str
  file_size : Nat
  segments_used : Nat
deriving DecidableEq, Repr

/-- A `generation_progress[generation_key]` record. -/
structure ProgressRecord where
  status : Status
  current_language : Str
  total_languages : Nat
  completed_languages : Nat
  final_audio_files : List (Str × LangOutput)
  merged_audio_path : Option Str
  error : Option Str
deriving DecidableEq, Repr

/-- A row of the `AnnouncementTemplate` table. -/
structure Template where
  id : Nat
  category : Str
  english_text : Option Str
  marathi_text : Option Str
  hindi_text : Option Str
  gujarati_text : Option Str
  is_active : Bool
deriving DecidableEq, Repr

/-- `getattr(template, f"{language}_text", template.english_text)`: the four
language attributes exist on the model, so the default only applies to other
names. -/
def getLangText (t : Template) (language : Str) : Option Str :=
  if language = "english".data then t.english_text
  else if language = "marathi".data then t.marathi_text
  else if language = "hindi".data then t.hindi_text
  else if language = "gujarati".data then t.gujarati_text
  else t.english_text

/-- The per-language audio sequence built by the generation loop: for each
raw piece of the template text, a stripped nonempty gap resolves through
`get_existing_audio_for_text`, and a placeholder with a binding in
`train_data` resolves through `get_existing_audio_for_placeholder` (the
braces put back around the stripped key, as the caller does). -/
def resolveSegPieces (template_id : Nat) (language : Str)
    (train_data : Str → Option Str) (db : Db) : List (Str ⊕ Str) → List Str
  | [] => []
  | Sum.inl gap :: rest =>
    let text_before := pyStrip gap
    (if text_before.isEmpty then []
     else
       match get_existing_audio_for_text text_before language template_id db with
       | some p => [p]
       | none => []) ++ resolveSegPieces template_id language train_data db rest
  | Sum.inr grp :: rest =>
    let key := pyStrip grp
    (match train_data key with
     | some v =>
       get_existing_audio_for_placeholder ('\x7b' :: (key ++ ['\x7d'])) v
         language db.audio_files
     | none => []) ++ resolveSegPieces template_id language train_data db rest

/-- The audio path sequence for one language's template text. -/
def buildAudioPaths (template_text language : Str) (template_id : Nat)
    (train_data : Str → Option Str) (db : Db) : List Str :=
  resolveSegPieces template_id language train_data db (segments template_text)

/-- One iteration of the per-language loop of
`generate_final_announcement_audio_background`: resolves the language's
template text to audio paths and, when concatenation succeeds, appends the
language's output entry to `final_audio_files`.  State is the accumulated
`final_audio_files` association list plus the filesystem. -/
def processLanguage (template : Template) (language : Str)
    (train_data : Str → Option Str) (db : Db) (size : Str → Nat)
    (timestamp : Str) (st : List (Str × LangOutput) × List Str) :
    List (Str × LangOutput) × List Str :=
  match getLangText template language with
  | none => st
  | some template_text =>
    if template_text.isEmpty then st
    else
      let audio_paths :=
        buildAudioPaths template_text language template.id train_data db
      if audio_paths.isEmpty then st
      else
        let output_filename :=
          "final_announcement_".data ++ template.category ++ "_".data ++
            language ++ "_".data ++ timestamp ++ "_".data ++
            (Nat.repr template.id).data ++ ".mp3".data
        let output_path :=
          pathJoin "/var/www/audio_files/final_announcements".data output_filename
        let cres := concatenate_audio_files audio_paths output_path st.2
        if cres.1.isSome then
          (st.1 ++ [(language,
             LangOutput.mk ("/audio_files/final_announcements/".data ++ output_filename)
               (size output_path) audio_paths.length)], cres.2)
        else (st.1, cres.2)

/-- The environment a background generation job runs in: the request
arguments, the catalog store, the filesystem, and oracles for the values the
job reads from the outside (file sizes, the timestamp). -/
structure JobEnv where
  template_id : Nat
  train_data : Str → Option Str
  db : Db
  templates : List Template
  fs0 : List Str
  size : Str → Nat
  timestamp : Str

/-- The observable outcome of one background generation run: the final
progress record, the ordered list of values the record's `status` field took
(every write, starting from the initialisation), the argument list of the
final merge call when one was made, and the filesystem afterwards. -/
structure JobResult where
  record : ProgressRecord
  statuses : List Status
  mergeCall : Option (List Str)
  fs : List Str

/-- The per-language loop of `generate_final_announcement_audio_background`,
in its fixed processing order english, marathi, hindi, gujarati. -/
def runLoop (template : Template) (train_data : Str → Option Str) (db : Db)
    (size : Str → Nat) (timestamp : Str) (fs0 : List Str) :
    List (Str × LangOutput) × List Str :=
  processLanguage template "gujarati".data train_data db size timestamp
    (processLanguage template "hindi".data train_data db size timestamp
      (processLanguage template "marathi".data train_data db size timestamp
        (processLanguage template "english".data train_data db size timestamp
          ([], fs0))))

/-- The tail of `generate_final_announcement_audio_background` after the
per-language loop: `completed_languages` set to the language count, then the
merge step in the fixed sequence english, hindi, marathi, gujarati when all
four languages produced output, else the partial-failure error naming the
count produced. -/
def finishJob (template : Template) (train_data : Str → Option Str)
    (timestamp : Str) (final_audio_files : List (Str × LangOutput))
    (fs : List Str) : JobResult :=
  if final_audio_files.length = 4 then
    let merged_filename :=
      "merged_announcement_".data ++
        ((train_data "train_number".data).getD "unknown".data) ++
        "_".data ++ template.category ++ "_".data ++ timestamp ++
        ".mp3".data
    let merged_path := pathJoin "/var/www/audio_files/merged".data merged_filename
    let audio_files_to_merge :=
      ["english".data, "hindi".data, "marathi".data, "gujarati".data].filterMap
        fun lang => (final_audio_files.lookup lang).map LangOutput.audio_path
    let cres := concatenate_audio_files audio_files_to_merge merged_path fs
    if cres.1.isSome then
      { record := { status := Status.completed,
                    current_language := "gujarati".data, total_languages := 4,
                    completed_languages := 4,
                    final_audio_files := final_audio_files,
                    merged_audio_path :=
                      some ("/audio_files/merged/".data ++ merged_filename),
                    error := none },
        statuses := [Status.starting, Status.processing, Status.merging,
                     Status.completed],
        mergeCall := some audio_files_to_merge, fs := cres.2 }
    else
      { record := { status := Status.error,
                    current_language := "gujarati".data, total_languages := 4,
                    completed_languages := 4,
                    final_audio_files := final_audio_files,
                    merged_audio_path := none,
                    error := some "Failed to merge audio files".data },
        statuses := [Status.starting, Status.processing, Status.merging,
                     Status.error],
        mergeCall := some audio_files_to_merge, fs := cres.2 }
  else
    { record := { status := Status.error,
                  current_language := "gujarati".data, total_languages := 4,
                  completed_languages := 4,
                  final_audio_files := final_audio_files,
                  merged_audio_path := none,
                  error := some ("Only ".data ++
                    (Nat.repr final_audio_files.length).data ++
                    " out of 4 language files generated".data) },
      statuses := [Status.starting, Status.processing, Status.error],
      mergeCall := none, fs := fs }

/-- `generate_final_announcement_audio_background` of
`final_announcement.py`: template lookup, the per-language loop in the fixed
order english, marathi, hindi, gujarati, then the merge step. -/
def runJob (env : JobEnv) : JobResult :=
  match env.templates.find? (fun t => t.id = env.template_id && t.is_active) with
  | none =>
    { record := { status := Status.error, current_language := [],
                  total_languages := 4, completed_languages := 0,
                  final_audio_files := [], merged_audio_path := none,
                  error := some "Template not found".data },
      statuses := [Status.starting, Status.processing, Status.error],
      mergeCall := none, fs := env.fs0 }
  | some template =>
    let st := runLoop template env.train_data env.db env.size env.timestamp env.fs0
    finishJob template env.train_data env.timestamp st.1 st.2

/-- Worth of a status for the forward ordering of the progress tracker. -/
def statusRank : Status → Nat
  | Status.starting => 0
  | Status.processing => 1
  | Status.merging => 2
  | Status.completed => 3
  | Status.error => 4

/-- One admissible transition of the progress tracker: forward through
starting, processing, merging, completed, or a jump to error. -/
def StatusStep (a b : Status) : Prop :=
  b = Status.error ∨ statusRank a < statusRank b

instance : DecidableRel StatusStep := fun a b =>
  inferInstanceAs (Decidable (b = Status.error ∨ statusRank a < statusRank b))

/-- The status history of one generation key when the same request is issued
twice in a row: the second call's initialisation overwrites the key's record
(the key derives only from the template id and train number), so the
history is the two runs' histories concatenated. -/
def runTwiceStatuses (env : JobEnv) : List Status :=
  (runJob env).statuses ++ (runJob env).statuses

/-- Python `', '.join(xs)`-style joining with a separator. -/
def joinSep (sep : Str) : List Str → Str
  | [] => []
  | [x] => x
  | x :: y :: rest => x ++ sep ++ joinSep sep (y :: rest)

/-- Python `s.split(sep)` for a single-character separator (keeps empties). -/
def splitOnCharAux (sep : Char) : Str → Str → List Str
  | [], acc => [acc.reverse]
  | c :: rest, acc =>
    if c = sep then acc.reverse :: splitOnCharAux sep rest []
    else splitOnCharAux sep rest (c :: acc)

/-- Python `s.split(sep)` for a single-character separator. -/
def splitOnChar (sep : Char) (cs : Str) : List Str := splitOnCharAux sep cs []

/-- Python `s.endswith(suffix)`. -/
def endsWith (suffix cs : Str) : Bool := suffix.reverse.isPrefixOf cs.reverse

/-- How the ISL video output was produced. -/
inductive VideoBuild
  | copy (src : Str)
  | concat (srcs : List Str)
deriving DecidableEq, Repr

/-- One word's lookup in the sign-language dataset (a directory per word,
its value the directory listing): the first `.mp4` file of the word's
directory, when the directory exists and holds one. -/
def resolveWordVideo (dataset : List (Str × List Str)) (word : Str) :
    Option Str :=
  (dataset.lookup word).bind fun files =>
    (files.find? fun f => endsWith ".mp4".data f).map fun f =>
      pathJoin (pathJoin "isl_dataset".data word) f

/-- `generate_isl_video_from_text` of `isl_utils.py`: lowercase and
whitespace-tokenize, resolve each token against the dataset (unresolvable
tokens skipped), raise naming the available vocabulary when nothing
resolved, copy a single clip directly, and ffmpeg-concat several clips in
token order.  `ffmpegOk` abstracts the external concat tool's exit status. -/
def generate_isl_video_from_text (text : Str) (dataset : List (Str × List Str))
    (timestamp : Nat) (text_hash : Str) (ffmpegOk : Bool) :
    Except Str (Str × VideoBuild) :=
  let t := pyStrip (pyLower text)
  let words := pySplit t
  let available_videos := words.filterMap (resolveWordVideo dataset)
  match available_videos with
  | [] =>
    Except.error
      ("No matching ISL videos found for the given text. Available words in dataset: ".data
        ++ joinSep ", ".data (dataset.map Prod.fst))
  | [v] =>
    Except.ok ("text_isl_".data ++ text_hash ++ "_".data ++
      (Nat.repr timestamp).data ++ ".mp4".data, VideoBuild.copy v)
  | v1 :: v2 :: rest =>
    if ffmpegOk then
      Except.ok ("text_isl_".data ++ text_hash ++ "_".data ++
        (Nat.repr timestamp).data ++ ".mp4".data,
        VideoBuild.concat (v1 :: v2 :: rest))
    else Except.error "Failed to concatenate videos".data

/-- The request `generate_audio_file` sends to the external Synthesizer. -/
structure SynthCall where
  text : Str
  voice_name : Str
  language_code : Str
  ssml_gender_neutral : Bool
  speaking_rate : ℚ
  pitch : ℚ
  volume_gain_db : ℚ
deriving DecidableEq, Repr

/-- The `voice_mapping` table of `generate_audio_file`. -/
def voice_mapping (language : Str) : Option Str :=
  if language = "English".data then some "en-IN-Standard-A".data
  else if language = "Hindi".data then some "hi-IN-Standard-A".data
  else if language = "Marathi".data then some "mr-IN-Standard-A".data
  else if language = "Gujarati".data then some "gu-IN-Standard-A".data
  else none

/-- `generate_audio_file` of `isl_utils.py`: the Synthesizer request built
for a text and language (voice from `voice_mapping` with the English-India
default, speaking rate 0.9, pitch 0, volume gain 0, the text passed through
unchanged), and the temp file path the audio bytes are written to. -/
def generate_audio_file (text language : Str) (timestamp : Nat)
    (text_hash : Str) : SynthCall × Str :=
  let voice_name := (voice_mapping language).getD "en-IN-Standard-A".data
  let parts := splitOnChar '-' voice_name
  ({ text := text,
     voice_name := voice_name,
     language_code := parts.getD 0 [] ++ '-' :: parts.getD 1 [],
     ssml_gender_neutral := true,
     speaking_rate := (9 : ℚ) / 10,
     pitch := 0,
     volume_gain_db := 0 },
   "/tmp/temp_audio_".data ++ text_hash ++ "_".data ++
     (Nat.repr timestamp).data ++ ".mp3".data)

/-- `merge_audio_files` of `isl_utils.py`: empty input raises; a one-element
list is returned as-is with no file created; two or more paths produce a new
timestamped output in `output_dir` via the external concat tool
(`ffmpegOk`).  The result pairs the returned path with the created file
(`none` when no file was created). -/
def merge_audio_files (audio_paths : List Str) (output_dir : Str)
    (timestamp : Str) (ffmpegOk : Bool) : Except Str (Str × Option Str) :=
  match audio_paths with
  | [] => Except.error "No audio files to merge".data
  | [p] => Except.ok (p, none)
  | _ :: _ :: _ =>
    let output_filename :=
      if infixOf "text_isl".data output_dir then
        "merged_text_isl_".data ++ timestamp ++ ".mp3".data
      else "merged_speech_to_isl_".data ++ timestamp ++ ".mp3".data
    let output_path := pathJoin output_dir output_filename
    if ffmpegOk then Except.ok (output_path, some output_path)
    else Except.error "Failed to merge audio files".data

/-- The ordered candidate publish directories of `publish_isl.py`. -/
def publish_candidate_dirs : List Str :=
  ["/var/www/publish_isl".data, "./publish_isl".data, "/tmp/publish_isl".data]

/-- `publish_isl_announcement` of `publish_isl.py`: the first writable
candidate directory receives the page; none writable raises.  Returns the
directory used, the unique filename, and the public URL. -/
def publish_isl_announcement (writable : Str → Bool)
    (train_number timestamp : Str) : Except Str (Str × Str × Str) :=
  match publish_candidate_dirs.find? writable with
  | none =>
    Except.error "No writable directory found for publishing ISL announcements".data
  | some publish_dir =>
    let filename := "isl_announcement_".data ++
      replaceAll " ".data "_".data train_number ++ "_".data ++ timestamp ++
      ".html".data
    Except.ok (publish_dir, filename, "/publish_isl/".data ++ filename)

/-- Example catalog for claim C1: audio exists for the word "one" only. -/
def dbC1 : List AudioFileRec :=
  [{ english_text := "one".data, marathi_translation := none,
     hindi_translation := none, gujarati_translation := none,
     english_audio_path := some "/audio_files/one.mp3".data,
     marathi_audio_path := none, hindi_audio_path := none,
     gujarati_audio_path := none, is_active := true }]

/-- Claim C1 (counterexample): with a catalog that has audio for the digit
word "one" but not "two", the placeholder `{train_number}` bound to the
two-digit value "12" resolves to a one-element list — a partial list that is
neither of length 2 (one per digit) nor not-found. -/
theorem c1_counterexample :
    get_existing_audio_for_placeholder "\x7btrain_number\x7d".data "12".data
      "english".data dbC1 = ["/audio_files/one.mp3".data] ∧
    ¬ ((get_existing_audio_for_placeholder "\x7btrain_number\x7d".data "12".data
          "english".data dbC1).length = ("12".data).length ∨
       get_existing_audio_for_placeholder "\x7btrain_number\x7d".data "12".data
          "english".data dbC1 = []) := by decide

/-- Claim C1 (amended): for a placeholder whose name contains `train_number`
or `platform_number` and a digit-string value, resolution returns exactly the
successful per-digit lookups in original digit order (so at most one
reference per digit, order preserved), and returns not-found as a whole only
when no digit at all resolves; a partial list covering a strict subset of
the digits is possible. -/
theorem c1_digit_resolution (placeholder value language : Str)
    (db : List AudioFileRec) (lang : Lang)
    (hname : infixOf "train_number".data (pyLower (pyStripBraces placeholder)) = true ∨
      infixOf "platform_number".data (pyLower (pyStripBraces placeholder)) = true)
    (hdig : pyIsDigit value = true)
    (hlang : langOfString language = some lang) :
    get_existing_audio_for_placeholder placeholder value language db =
      value.filterMap (fun d => findAudioExactEnglish db lang (digit_to_word d)) ∧
    (get_existing_audio_for_placeholder placeholder value language db).length ≤
      value.length ∧
    (get_existing_audio_for_placeholder placeholder value language db = [] ↔
      ∀ d ∈ value, findAudioExactEnglish db lang (digit_to_word d) = none) := by
  have hres : get_existing_audio_for_placeholder placeholder value language db =
      value.filterMap (fun d => findAudioExactEnglish db lang (digit_to_word d)) := by
    unfold get_existing_audio_for_placeholder
    rw [hlang]
    rcases hname with h | h
    · simp [h, hdig]
    · by_cases ht :
        infixOf "train_number".data (pyLower (pyStripBraces placeholder)) = true
      · simp [ht, hdig]
      · have ht2 : infixOf "train_number".data (pyLower (pyStripBraces placeholder)) =
            false := by
          revert ht
          cases infixOf "train_number".data (pyLower (pyStripBraces placeholder)) <;> simp
        simp [ht2, h, hdig]
  refine ⟨hres, ?_, ?_⟩
  · rw [hres]
    exact List.length_filterMap_le _ _
  · rw [hres]
    exact List.filterMap_eq_nil_iff

/-- Witness for C1: the amended statement instantiated at the
counterexample's catalog and inputs. -/
theorem c1_witness :
    get_existing_audio_for_placeholder "\x7btrain_number\x7d".data "12".data
      "english".data dbC1 =
      ("12".data).filterMap
        (fun d => findAudioExactEnglish dbC1 Lang.english (digit_to_word d)) ∧
    (get_existing_audio_for_placeholder "\x7btrain_number\x7d".data "12".data
      "english".data dbC1).length ≤ ("12".data).length ∧
    (get_existing_audio_for_placeholder "\x7btrain_number\x7d".data "12".data
      "english".data dbC1 = [] ↔
      ∀ d ∈ "12".data, findAudioExactEnglish dbC1 Lang.english (digit_to_word d) = none) :=
  c1_digit_resolution "\x7btrain_number\x7d".data "12".data "english".data dbC1
    Lang.english (Or.inl (by decide)) (by decide) (by decide)

/-- Claim C3 (counterexample): on the template text "a {x} b" the produced
segment values concatenate to "axb", not to the original text — the strip of
literal runs and the removal of the braces around the placeholder name break
the round-trip law. -/
theorem c3_counterexample :
    concatValues (segmentTemplate "a \x7bx\x7d b".data) = "axb".data ∧
    concatValues (segmentTemplate "a \x7bx\x7d b".data) ≠ "a \x7bx\x7d b".data := by
  decide

/-- Claim C3 (amended): for every template text the segmentation yields
exactly one placeholder entry per matched `{...}` token, in original
left-to-right order and carrying the stripped captured group, and the raw
pieces of the scan (gap runs and brace-delimited tokens) concatenate back to
the original text with no gaps or overlaps; the produced segment values
themselves are whitespace-stripped literals and brace-less placeholder
names, so concatenating them does not reconstruct the text in general. -/
theorem c3_segmenter_roundtrip (text : Str) :
    phValues (segmentTemplate text) = pieceGroups (segments text) ∧
    flattenPieces (segments text) = text :=
  ⟨phValues_toSegs (segments text), flattenPieces_segments text⟩

/-- Claim C4 (confirmed): `concatenate_audio_files` fails and creates no
output (the filesystem is unchanged) when no valid path remains after
filtering falsy entries, or when the first remaining path's file is missing;
when the first file exists it succeeds, creating the output, and the content
is the first file followed by exactly the later files that exist, a sublist
of the valid paths in their given order (missing later files skipped, never
reordered). -/
theorem c4_concatenate_audio_files (audio_paths : List Str) (output_path : Str)
    (fs : List Str) :
    (audio_paths.filter (fun p => !p.isEmpty) = [] →
      concatenate_audio_files audio_paths output_path fs = (none, fs)) ∧
    (∀ v0 vrest, audio_paths.filter (fun p => !p.isEmpty) = v0 :: vrest →
      (fs.contains (audioFullPath v0) = false →
        concatenate_audio_files audio_paths output_path fs = (none, fs)) ∧
      (fs.contains (audioFullPath v0) = true →
        concatenate_audio_files audio_paths output_path fs =
          (some (v0 :: vrest.filter fun p => fs.contains (audioFullPath p)),
           output_path :: fs) ∧
        (v0 :: vrest.filter fun p => fs.contains (audioFullPath p)).Sublist
          (v0 :: vrest))) := by
  constructor
  · intro hempty
    cases audio_paths with
    | nil => rfl
    | cons a rest =>
      show (match (a :: rest).filter (fun p => !p.isEmpty) with
        | [] => ((none : Option (List Str)), fs)
        | v0 :: vrest =>
          if fs.contains (audioFullPath v0) then
            (some (v0 :: vrest.filter fun p => fs.contains (audioFullPath p)),
             output_path :: fs)
          else (none, fs)) = (none, fs)
      rw [hempty]
  · intro v0 vrest hv
    cases audio_paths with
    | nil => simp at hv
    | cons a rest =>
      have hred : concatenate_audio_files (a :: rest) output_path fs =
          (if fs.contains (audioFullPath v0) then
            (some (v0 :: vrest.filter fun p => fs.contains (audioFullPath p)),
             output_path :: fs)
          else (none, fs)) := by
        show (match (a :: rest).filter (fun p => !p.isEmpty) with
          | [] => ((none : Option (List Str)), fs)
          | v0 :: vrest =>
            if fs.contains (audioFullPath v0) then
              (some (v0 :: vrest.filter fun p => fs.contains (audioFullPath p)),
               output_path :: fs)
            else (none, fs)) = _
        rw [hv]
      constructor
      · intro hmiss
        rw [hred, hmiss]
        simp
      · intro hhit
        refine ⟨by rw [hred, if_pos hhit], ?_⟩
        exact List.Sublist.cons₂ v0 (List.filter_sublist vrest)

/-- Witness for C4: with valid paths `a`, `b`, `c` (after dropping an empty
entry) where the files for `a` and `c` exist but `b`'s is missing, the
concatenation succeeds with content `[a, c]` — the missing middle file is
skipped, order kept. -/
theorem c4_witness :
    concatenate_audio_files
      ["/audio_files/a.mp3".data, [], "/audio_files/b.mp3".data,
       "/audio_files/c.mp3".data]
      "/var/www/audio_files/out.mp3".data
      ["/var/www/audio_files/a.mp3".data, "/var/www/audio_files/c.mp3".data] =
      (some ["/audio_files/a.mp3".data, "/audio_files/c.mp3".data],
       "/var/www/audio_files/out.mp3".data ::
         ["/var/www/audio_files/a.mp3".data, "/var/www/audio_files/c.mp3".data]) := by
  have h := ((c4_concatenate_audio_files
    ["/audio_files/a.mp3".data, [], "/audio_files/b.mp3".data,
     "/audio_files/c.mp3".data]
    "/var/www/audio_files/out.mp3".data
    ["/var/www/audio_files/a.mp3".data, "/var/www/audio_files/c.mp3".data]).2
    "/audio_files/a.mp3".data
    ["/audio_files/b.mp3".data, "/audio_files/c.mp3".data]
    (by decide)).2 (by decide)
  have h1 := h.1
  rw [h1]
  decide

/-- The ISL build list: the tokens of the lowercased text, each resolved
against the dataset, unresolvable tokens skipped. -/
def islAvailableVideos (text : Str) (dataset : List (Str × List Str)) :
    List Str :=
  (pySplit (pyStrip (pyLower text))).filterMap (resolveWordVideo dataset)

/-- The unique output filename of one ISL video build. -/
def islOutputFilename (timestamp : Nat) (text_hash : Str) : Str :=
  "text_isl_".data ++ text_hash ++ "_".data ++ (Nat.repr timestamp).data ++
    ".mp4".data

/-- Claim C5 (confirmed): ISL video generation lowercases and tokenizes the
text and resolves each token against the dataset, skipping unresolvable
tokens; an empty build list raises the error naming the available
vocabulary; one resolved clip is copied directly; several are concatenated
in token order (when the external tool succeeds); and an error can only
arise from an empty build list or the external tool failing — skipped tokens
alone never fail the build. -/
theorem c5_isl_video (text : Str) (dataset : List (Str × List Str))
    (timestamp : Nat) (text_hash : Str) (ffmpegOk : Bool) :
    (islAvailableVideos text dataset = [] →
      generate_isl_video_from_text text dataset timestamp text_hash ffmpegOk =
        Except.error
          ("No matching ISL videos found for the given text. Available words in dataset: ".data
            ++ joinSep ", ".data (dataset.map Prod.fst))) ∧
    (∀ v, islAvailableVideos text dataset = [v] →
      generate_isl_video_from_text text dataset timestamp text_hash ffmpegOk =
        Except.ok (islOutputFilename timestamp text_hash, VideoBuild.copy v)) ∧
    (∀ v1 v2 rest, islAvailableVideos text dataset = v1 :: v2 :: rest →
      ffmpegOk = true →
      generate_isl_video_from_text text dataset timestamp text_hash ffmpegOk =
        Except.ok (islOutputFilename timestamp text_hash,
          VideoBuild.concat (v1 :: v2 :: rest))) ∧
    (∀ e, generate_isl_video_from_text text dataset timestamp text_hash ffmpegOk =
        Except.error e →
      islAvailableVideos text dataset = [] ∨ ffmpegOk = false) := by
  have hred : generate_isl_video_from_text text dataset timestamp text_hash ffmpegOk =
      (match islAvailableVideos text dataset with
       | [] =>
         Except.error
           ("No matching ISL videos found for the given text. Available words in dataset: ".data
             ++ joinSep ", ".data (dataset.map Prod.fst))
       | [v] =>
         Except.ok (islOutputFilename timestamp text_hash, VideoBuild.copy v)
       | v1 :: v2 :: rest =>
         if ffmpegOk then
           Except.ok (islOutputFilename timestamp text_hash,
             VideoBuild.concat (v1 :: v2 :: rest))
         else Except.error "Failed to concatenate videos".data) := rfl
  refine ⟨?_, ?_, ?_, ?_⟩
  · intro h
    rw [hred, h]
  · intro v h
    rw [hred, h]
  · intro v1 v2 rest h hok
    rw [hred, h]
    exact if_pos (by simp [hok])
  · intro e he
    rw [hred] at he
    cases h2 : islAvailableVideos text dataset with
    | nil => exact Or.inl rfl
    | cons v1 vs =>
      rw [h2] at he
      cases vs with
      | nil => simp at he
      | cons v2 rest =>
        cases hok : ffmpegOk with
        | true => rw [hok] at he; simp at he
        | false => exact Or.inr rfl

/-- Witness for C5: a dataset knowing only "hello"; the text "Hello world"
resolves to that single clip and the build is a direct copy (the token
"world" is skipped without failing). -/
theorem c5_witness :
    generate_isl_video_from_text "Hello world".data
      [("hello".data, ["h1.mp4".data])] 7 "abcd1234".data true =
      Except.ok (islOutputFilename 7 "abcd1234".data,
        VideoBuild.copy "isl_dataset/hello/h1.mp4".data) :=
  (c5_isl_video "Hello world".data [("hello".data, ["h1.mp4".data])] 7
    "abcd1234".data true).2.1 "isl_dataset/hello/h1.mp4".data (by decide)

/-- Claim C7 (confirmed): the publisher tries its three candidate
directories in the fixed order primary, local fallback, temp fallback, uses
the first writable one, raises the terminal storage error when none is
writable, and whichever directory is used the returned URL is the public
mount prefix `/publish_isl/` followed by the unique filename. -/
theorem c7_publish (writable : Str → Bool) (train_number timestamp : Str) :
    ((∀ d ∈ publish_candidate_dirs, writable d = false) →
      publish_isl_announcement writable train_number timestamp =
        Except.error
          "No writable directory found for publishing ISL announcements".data) ∧
    (∀ dir fname url,
      publish_isl_announcement writable train_number timestamp =
        Except.ok (dir, fname, url) →
      publish_candidate_dirs.find? writable = some dir ∧
      url = "/publish_isl/".data ++ fname) ∧
    (writable "/var/www/publish_isl".data = true →
      ∃ fname, publish_isl_announcement writable train_number timestamp =
        Except.ok ("/var/www/publish_isl".data, fname,
          "/publish_isl/".data ++ fname)) ∧
    (writable "/var/www/publish_isl".data = false →
      writable "./publish_isl".data = true →
      ∃ fname, publish_isl_announcement writable train_number timestamp =
        Except.ok ("./publish_isl".data, fname,
          "/publish_isl/".data ++ fname)) ∧
    (writable "/var/www/publish_isl".data = false →
      writable "./publish_isl".data = false →
      writable "/tmp/publish_isl".data = true →
      ∃ fname, publish_isl_announcement writable train_number timestamp =
        Except.ok ("/tmp/publish_isl".data, fname,
          "/publish_isl/".data ++ fname)) := by
  refine ⟨?_, ?_, ?_, ?_, ?_⟩
  · intro hall
    have hnone : publish_candidate_dirs.find? writable = none := by
      rw [List.find?_eq_none]
      intro d hd
      simp [hall d hd]
    unfold publish_isl_announcement
    rw [hnone]
  · intro dir fname url hok
    unfold publish_isl_announcement at hok
    cases hf : publish_candidate_dirs.find? writable with
    | none => rw [hf] at hok; simp at hok
    | some d =>
      rw [hf] at hok
      simp only [Except.ok.injEq, Prod.mk.injEq] at hok
      obtain ⟨hd, hfn, hurl⟩ := hok
      subst hd
      refine ⟨rfl, ?_⟩
      rw [← hurl, hfn]
  · intro h1
    refine ⟨"isl_announcement_".data ++ replaceAll " ".data "_".data train_number ++
      "_".data ++ timestamp ++ ".html".data, ?_⟩
    have hfind : publish_candidate_dirs.find? writable =
        some "/var/www/publish_isl".data := by
      simp [publish_candidate_dirs, List.find?, h1]
    unfold publish_isl_announcement
    rw [hfind]
  · intro h1 h2
    refine ⟨"isl_announcement_".data ++ replaceAll " ".data "_".data train_number ++
      "_".data ++ timestamp ++ ".html".data, ?_⟩
    have hfind : publish_candidate_dirs.find? writable = some "./publish_isl".data := by
      simp [publish_candidate_dirs, List.find?, h1, h2]
    unfold publish_isl_announcement
    rw [hfind]
  · intro h1 h2 h3
    refine ⟨"isl_announcement_".data ++ replaceAll " ".data "_".data train_number ++
      "_".data ++ timestamp ++ ".html".data, ?_⟩
    have hfind : publish_candidate_dirs.find? writable = some "/tmp/publish_isl".data := by
      simp [publish_candidate_dirs, List.find?, h1, h2, h3]
    unfold publish_isl_announcement
    rw [hfind]

/-- Witness for C7: with only the temp directory writable, publishing
succeeds using it and the URL still carries the public mount prefix. -/
theorem c7_witness :
    ∃ fname,
      publish_isl_announcement (fun d => d = "/tmp/publish_isl".data)
        "12 345".data "20250101".data =
        Except.ok ("/tmp/publish_isl".data, fname,
          "/publish_isl/".data ++ fname) :=
  (c7_publish (fun d => d = "/tmp/publish_isl".data) "12 345".data
    "20250101".data).2.2.2.2 (by decide) (by decide) (by decide)

/-- Claim C8 (counterexample): `generate_audio_file` sends the text to the
Synthesizer unchanged — the request for "platform 2" still contains the
digit `2`, not its English word, even though `convert_digits_to_words` would
have produced "platform two". -/
theorem c8_counterexample :
    ((generate_audio_file "platform 2".data "English".data 0 "h".data).1).text =
      "platform 2".data ∧
    (((generate_audio_file "platform 2".data "English".data 0 "h".data).1).text.any
      Char.isDigit) = true ∧
    convert_digits_to_words "platform 2".data = "platform two".data := by decide

/-- Claim C8 (amended): for every text and supported language the synthesis
fallback calls the Synthesizer with the single configured voice identity for
that language, speaking rate 0.9, neutral pitch and neutral volume — but the
text is passed through unchanged: digits are not expanded to words by this
function. -/
theorem c8_synth_request (text language : Str) (timestamp : Nat)
    (text_hash : Str) (v : Str) (hv : voice_mapping language = some v) :
    (generate_audio_file text language timestamp text_hash).1 =
      { text := text,
        voice_name := v,
        language_code :=
          (splitOnChar '-' v).getD 0 [] ++ '-' :: (splitOnChar '-' v).getD 1 [],
        ssml_gender_neutral := true,
        speaking_rate := (9 : ℚ) / 10,
        pitch := 0,
        volume_gain_db := 0 } := by
  unfold generate_audio_file
  rw [hv]
  rfl

/-- Witness for C8: the amended statement instantiated for Hindi. -/
theorem c8_witness :
    (generate_audio_file "hello".data "Hindi".data 3 "h".data).1 =
      { text := "hello".data,
        voice_name := "hi-IN-Standard-A".data,
        language_code :=
          (splitOnChar '-' "hi-IN-Standard-A".data).getD 0 [] ++ '-' ::
            (splitOnChar '-' "hi-IN-Standard-A".data).getD 1 [],
        ssml_gender_neutral := true,
        speaking_rate := (9 : ℚ) / 10,
        pitch := 0,
        volume_gain_db := 0 } :=
  c8_synth_request "hello".data "Hindi".data 3 "h".data
    "hi-IN-Standard-A".data (by decide)

/-- Claim C9 (confirmed): `merge_audio_files` returns a one-element input's
single path itself and creates no file; any call that does create a file was
given at least two paths; and two or more paths (with the external tool
succeeding) produce a new output file in the output directory. -/
theorem c9_merge_audio_files (output_dir timestamp : Str) (ffmpegOk : Bool) :
    (∀ p, merge_audio_files [p] output_dir timestamp ffmpegOk =
      Except.ok (p, none)) ∧
    (∀ paths r created,
      merge_audio_files paths output_dir timestamp ffmpegOk =
        Except.ok (r, some created) → 2 ≤ paths.length) ∧
    (∀ p1 p2 rest, ffmpegOk = true →
      ∃ out, merge_audio_files (p1 :: p2 :: rest) output_dir timestamp ffmpegOk =
        Except.ok (out, some out)) := by
  refine ⟨fun p => rfl, ?_, ?_⟩
  · intro paths r created h
    match paths with
    | [] => simp [merge_audio_files] at h
    | [p] =>
      simp only [merge_audio_files, Except.ok.injEq, Prod.mk.injEq] at h
      exact absurd h.2 (by simp)
    | p1 :: p2 :: rest => simp
  · intro p1 p2 rest hok
    refine ⟨pathJoin output_dir
      (if infixOf "text_isl".data output_dir then
        "merged_text_isl_".data ++ timestamp ++ ".mp3".data
      else "merged_speech_to_isl_".data ++ timestamp ++ ".mp3".data), ?_⟩
    unfold merge_audio_files
    rw [hok]
    simp

/-- Witness for C9: a singleton returns its path with no file created; a
two-element list creates an output. -/
theorem c9_witness :
    merge_audio_files ["/tmp/a.mp3".data] "/var/www/out".data "t".data true =
      Except.ok ("/tmp/a.mp3".data, none) ∧
    ∃ out, merge_audio_files ["/tmp/a.mp3".data, "/tmp/b.mp3".data]
      "/var/www/out".data "t".data true = Except.ok (out, some out) :=
  ⟨(c9_merge_audio_files "/var/www/out".data "t".data true).1 "/tmp/a.mp3".data,
   (c9_merge_audio_files "/var/www/out".data "t".data true).2.2
     "/tmp/a.mp3".data "/tmp/b.mp3".data [] rfl⟩

/-- A possibly-absent entry of the per-language output map. -/
def optEntry (l : Str) : Option LangOutput → List (Str × LangOutput)
  | none => []
  | some o => [(l, o)]

theorem processLanguage_fst (template : Template) (language : Str)
    (train_data : Str → Option Str) (db : Db) (size : Str → Nat)
    (timestamp : Str) (st : List (Str × LangOutput) × List Str) :
    ∃ o : Option LangOutput,
      (processLanguage template language train_data db size timestamp st).1 =
        st.1 ++ optEntry language o := by
  unfold processLanguage
  split
  · exact ⟨none, by simp [optEntry]⟩
  · split
    · exact ⟨none, by simp [optEntry]⟩
    · dsimp only
      split
      · exact ⟨none, by simp [optEntry]⟩
      · split
        · exact ⟨some _, rfl⟩
        · exact ⟨none, by simp [optEntry]⟩

theorem runLoop_shape (template : Template) (train_data : Str → Option Str)
    (db : Db) (size : Str → Nat) (timestamp : Str) (fs0 : List Str) :
    ∃ oe om oh og : Option LangOutput,
      (runLoop template train_data db size timestamp fs0).1 =
        optEntry "english".data oe ++ optEntry "marathi".data om ++
          optEntry "hindi".data oh ++ optEntry "gujarati".data og := by
  obtain ⟨oe, he⟩ := processLanguage_fst template "english".data train_data db
    size timestamp ([], fs0)
  obtain ⟨om, hm⟩ := processLanguage_fst template "marathi".data train_data db
    size timestamp (processLanguage template "english".data train_data db size
      timestamp ([], fs0))
  obtain ⟨oh, hh⟩ := processLanguage_fst template "hindi".data train_data db
    size timestamp (processLanguage template "marathi".data train_data db size
      timestamp (processLanguage template "english".data train_data db size
        timestamp ([], fs0)))
  obtain ⟨og, hg⟩ := processLanguage_fst template "gujarati".data train_data db
    size timestamp (processLanguage template "hindi".data train_data db size
      timestamp (processLanguage template "marathi".data train_data db size
        timestamp (processLanguage template "english".data train_data db size
          timestamp ([], fs0))))
  refine ⟨oe, om, oh, og, ?_⟩
  unfold runLoop
  rw [hg, hh, hm, he]
  simp

theorem finishJob_fa (t : Template) (td : Str → Option Str) (ts : Str)
    (fa : List (Str × LangOutput)) (fs : List Str) :
    (finishJob t td ts fa fs).record.final_audio_files = fa := by
  unfold finishJob
  split
  · dsimp only
    split <;> rfl
  · rfl

theorem finishJob_mergeCall (t : Template) (td : Str → Option Str) (ts : Str)
    (fa : List (Str × LangOutput)) (fs : List Str) :
    (finishJob t td ts fa fs).mergeCall =
      if fa.length = 4 then
        some (["english".data, "hindi".data, "marathi".data,
          "gujarati".data].filterMap
          fun lang => (fa.lookup lang).map LangOutput.audio_path)
      else none := by
  unfold finishJob
  by_cases h : fa.length = 4
  · rw [if_pos h, if_pos h]
    dsimp only
    split <;> rfl
  · rw [if_neg h, if_neg h]

theorem finishJob_partial (t : Template) (td : Str → Option Str) (ts : Str)
    (fa : List (Str × LangOutput)) (fs : List Str) (h : ¬ fa.length = 4) :
    (finishJob t td ts fa fs).record.status = Status.error ∧
    (finishJob t td ts fa fs).record.error =
      some ("Only ".data ++ (Nat.repr fa.length).data ++
        " out of 4 language files generated".data) := by
  unfold finishJob
  rw [if_neg h]
  exact ⟨rfl, rfl⟩

theorem finishJob_completed_languages (t : Template) (td : Str → Option Str)
    (ts : Str) (fa : List (Str × LangOutput)) (fs : List Str) :
    (finishJob t td ts fa fs).record.completed_languages = 4 := by
  unfold finishJob
  split
  · dsimp only
    split <;> rfl
  · rfl

theorem finishJob_chain (t : Template) (td : Str → Option Str) (ts : Str)
    (fa : List (Str × LangOutput)) (fs : List Str) :
    List.Chain' StatusStep (finishJob t td ts fa fs).statuses := by
  unfold finishJob
  split
  · dsimp only
    split
    · simp only [List.chain'_cons, List.chain'_singleton]
      exact ⟨by decide, by decide, by decide, trivial⟩
    · simp only [List.chain'_cons, List.chain'_singleton]
      exact ⟨by decide, by decide, by decide, trivial⟩
  · simp only [List.chain'_cons, List.chain'_singleton]
    exact ⟨by decide, by decide, trivial⟩

/-- Example template-harvested audio segment for a concrete job run. -/
def jobSegRec (l : String) : AudioSegmentRec :=
  { template_id := 1, segment_text := "hi".data, language := l.data,
    audio_path := some "/audio_files/hi.mp3".data, is_active := true }

/-- Example catalog for concrete job runs: the text "hi" has a clip in every
language's segment table. -/
def jobDb : Db :=
  { segments := [jobSegRec "english", jobSegRec "marathi", jobSegRec "hindi",
      jobSegRec "gujarati"],
    audio_files := [] }

/-- Example template whose four language texts are all "hi". -/
def jobTemplate : Template :=
  { id := 1, category := "arrival".data, english_text := some "hi".data,
    marathi_text := some "hi".data, hindi_text := some "hi".data,
    gujarati_text := some "hi".data, is_active := true }

/-- Example environment in which all four languages succeed and the merge
succeeds: the job completes. -/
def jobEnvOk : JobEnv :=
  { template_id := 1,
    train_data := fun k => if k = "train_number".data then some "123".data else none,
    db := jobDb, templates := [jobTemplate],
    fs0 := ["/var/www/audio_files/hi.mp3".data],
    size := fun _ => 5, timestamp := "ts".data }

/-- Example template with only the English text present. -/
def jobTemplatePartial : Template :=
  { id := 1, category := "arrival".data, english_text := some "hi".data,
    marathi_text := none, hindi_text := none, gujarati_text := none,
    is_active := true }

/-- Example environment in which only English produces an output file. -/
def jobEnvPartial : JobEnv :=
  { template_id := 1,
    train_data := fun k => if k = "train_number".data then some "123".data else none,
    db := jobDb, templates := [jobTemplatePartial],
    fs0 := ["/var/www/audio_files/hi.mp3".data],
    size := fun _ => 5, timestamp := "ts".data }

/-- Claim C2 (confirmed): with the template found, the final merge is
attempted iff all four languages appear in `final_audio_files`; when
attempted, its input list is the four per-language outputs in the fixed
order english, hindi, marathi, gujarati (not the loop's processing order
english, marathi, hindi, gujarati); and with fewer than four per-language
outputs the job ends in error status with the message naming how many of
the four were generated. -/
theorem c2_merge_sequence (env : JobEnv) (tmpl : Template)
    (hfound : env.templates.find?
      (fun t => t.id = env.template_id && t.is_active) = some tmpl) :
    ((runJob env).mergeCall.isSome = true ↔
      (((runJob env).record.final_audio_files.lookup "english".data).isSome = true ∧
       ((runJob env).record.final_audio_files.lookup "hindi".data).isSome = true ∧
       ((runJob env).record.final_audio_files.lookup "marathi".data).isSome = true ∧
       ((runJob env).record.final_audio_files.lookup "gujarati".data).isSome = true)) ∧
    (∀ a b c d : LangOutput,
      (runJob env).record.final_audio_files.lookup "english".data = some a →
      (runJob env).record.final_audio_files.lookup "hindi".data = some b →
      (runJob env).record.final_audio_files.lookup "marathi".data = some c →
      (runJob env).record.final_audio_files.lookup "gujarati".data = some d →
      (runJob env).mergeCall =
        some [a.audio_path, b.audio_path, c.audio_path, d.audio_path]) ∧
    ((runJob env).record.final_audio_files.length < 4 →
      (runJob env).record.status = Status.error ∧
      (runJob env).record.error =
        some ("Only ".data ++
          (Nat.repr (runJob env).record.final_audio_files.length).data ++
          " out of 4 language files generated".data)) := by
  have hrun : runJob env =
      finishJob tmpl env.train_data env.timestamp
        (runLoop tmpl env.train_data env.db env.size env.timestamp env.fs0).1
        (runLoop tmpl env.train_data env.db env.size env.timestamp env.fs0).2 := by
    unfold runJob
    rw [hfound]
  obtain ⟨oe, om, oh, og, hfa⟩ :=
    runLoop_shape tmpl env.train_data env.db env.size env.timestamp env.fs0
  refine ⟨?_, ?_, ?_⟩
  · rw [hrun, finishJob_fa, finishJob_mergeCall, hfa]
    rcases oe with _ | a <;> rcases om with _ | b <;> rcases oh with _ | c <;>
      rcases og with _ | d <;> simp [optEntry, List.lookup]
  · intro a b c d h1 h2 h3 h4
    rw [hrun, finishJob_fa, hfa] at h1 h2 h3 h4
    rw [hrun, finishJob_mergeCall, hfa]
    rcases oe with _ | a' <;> rcases om with _ | b' <;> rcases oh with _ | c' <;>
      rcases og with _ | d' <;>
      simp_all [optEntry, List.lookup]
  · intro hlen
    rw [hrun, finishJob_fa] at hlen
    have hne : ¬ (runLoop tmpl env.train_data env.db env.size env.timestamp
        env.fs0).1.length = 4 := by omega
    have hp := finishJob_partial tmpl env.train_data env.timestamp
      (runLoop tmpl env.train_data env.db env.size env.timestamp env.fs0).1
      (runLoop tmpl env.train_data env.db env.size env.timestamp env.fs0).2 hne
    rw [hrun, finishJob_fa]
    exact hp

/-- Witness for C2: in the all-succeeding environment the merge is
attempted, and its input list is the english, hindi, marathi, gujarati
outputs in that order. -/
theorem c2_witness :
    (runJob jobEnvOk).mergeCall.isSome = true ∧
    (runJob jobEnvOk).mergeCall =
      some ["/audio_files/final_announcements/final_announcement_arrival_english_ts_1.mp3".data,
            "/audio_files/final_announcements/final_announcement_arrival_hindi_ts_1.mp3".data,
            "/audio_files/final_announcements/final_announcement_arrival_marathi_ts_1.mp3".data,
            "/audio_files/final_announcements/final_announcement_arrival_gujarati_ts_1.mp3".data] := by
  constructor
  · exact (c2_merge_sequence jobEnvOk jobTemplate (by decide)).1.mpr (by decide)
  · exact (c2_merge_sequence jobEnvOk jobTemplate (by decide)).2.1
      { audio_path := "/audio_files/final_announcements/final_announcement_arrival_english_ts_1.mp3".data,
        file_size := 5, segments_used := 1 }
      { audio_path := "/audio_files/final_announcements/final_announcement_arrival_hindi_ts_1.mp3".data,
        file_size := 5, segments_used := 1 }
      { audio_path := "/audio_files/final_announcements/final_announcement_arrival_marathi_ts_1.mp3".data,
        file_size := 5, segments_used := 1 }
      { audio_path := "/audio_files/final_announcements/final_announcement_arrival_gujarati_ts_1.mp3".data,
        file_size := 5, segments_used := 1 }
      (by decide) (by decide) (by decide) (by decide)

/-- Claim C6 (counterexample): the claim fails across requests for the same
generation key.  In the all-succeeding environment one run ends completed,
but a second request with the same key re-initialises the record to
starting, so the key's status history regresses from completed to starting. -/
theorem c6_counterexample :
    (runJob jobEnvOk).statuses =
      [Status.starting, Status.processing, Status.merging, Status.completed] ∧
    ¬ List.Chain' StatusStep (runTwiceStatuses jobEnvOk) := by
  constructor
  · decide
  · intro hch
    have h : runTwiceStatuses jobEnvOk =
        [Status.starting, Status.processing, Status.merging, Status.completed,
         Status.starting, Status.processing, Status.merging, Status.completed] := by
      decide
    rw [h] at hch
    simp only [List.chain'_cons, List.chain'_singleton] at hch
    exact absurd hch.2.2.2.1 (by decide)

/-- Claim C6 (amended): within a single background generation run the status
only moves forward through starting, processing, merging, completed or jumps
to error; but a subsequent generation request deriving the same key
re-initialises the record to starting, so across requests the status can
regress from completed. -/
theorem c6_status_forward (env : JobEnv) :
    List.Chain' StatusStep (runJob env).statuses := by
  unfold runJob
  split
  · simp only [List.chain'_cons, List.chain'_singleton]
    exact ⟨by decide, by decide, trivial⟩
  · exact finishJob_chain _ _ _ _ _

/-- Claim C10 (confirmed): whenever the template is found (so the
per-language loop runs to its end), the record's `completed_languages` is
set to the total language count 4 — even when fewer languages produced
output; concretely, in the partial environment a poller observes
`completed_languages = 4` together with error status and a single entry in
`final_audio_files`. -/
theorem c10_completed_languages (env : JobEnv) (tmpl : Template)
    (hfound : env.templates.find?
      (fun t => t.id = env.template_id && t.is_active) = some tmpl) :
    (runJob env).record.completed_languages = 4 ∧
    ((runJob jobEnvPartial).record.completed_languages = 4 ∧
     (runJob jobEnvPartial).record.status = Status.error ∧
     (runJob jobEnvPartial).record.final_audio_files.length = 1) := by
  constructor
  · have hrun : runJob env =
        finishJob tmpl env.train_data env.timestamp
          (runLoop tmpl env.train_data env.db env.size env.timestamp env.fs0).1
          (runLoop tmpl env.train_data env.db env.size env.timestamp env.fs0).2 := by
      unfold runJob
      rw [hfound]
    rw [hrun]
    exact finishJob_completed_languages _ _ _ _ _
  · exact ⟨by decide, by decide, by decide⟩

/-- Witness for C10: the theorem instantiated at the partial environment
itself. -/
theorem c10_witness :
    (runJob jobEnvPartial).record.completed_languages = 4 ∧
    ((runJob jobEnvPartial).record.completed_languages = 4 ∧
     (runJob jobEnvPartial).record.status = Status.error ∧
     (runJob jobEnvPartial).record.final_audio_files.length = 1) :=
  c10_completed_languages jobEnvPartial jobTemplatePartial (by decide)
